import Mathlib

set_option maxHeartbeats 800000
set_option linter.unusedVariables false

namespace SolarCast

/-! Shallow embedding of src/main.py (solar-cast).

Database rows are modelled as Lean structures with rational number columns
(SQLAlchemy Float columns) and integer timestamps (DateTime columns, in
minutes, so that one day spans 1440 units).  The forecast table is a list of
rows in insertion order; SQLAlchemy session adds append to it, and queries see
pending adds because the session autoflushes before each query. -/

/-- Plant row: mirrors the Plant model in src/main.py (name, user_id,
latitude, longitude, capacity in kW, size in square meters, panel_angle and
panel_azimuth in degrees). -/
structure Plant where
  id : ℕ
  name : String
  user_id : ℕ
  latitude : ℚ
  longitude : ℚ
  capacity : ℚ
  size : ℚ
  panel_angle : ℚ
  panel_azimuth : ℚ
deriving DecidableEq

/-- Forecast row: mirrors the Forecast model in src/main.py; keyed in the code
by the pair of plant_id and timestamp through filter_by lookups. -/
structure Forecast where
  plant_id : ℕ
  timestamp : ℤ
  ghi : ℚ
  dni : ℚ
  dhi : ℚ
  air_temp : ℚ
  cloud_opacity : ℚ
deriving DecidableEq

/-- PlantPerformance row: mirrors the PlantPerformance model in src/main.py.
The date column is the start instant of the day; expected_output is in kWh. -/
structure PlantPerformance where
  plant_id : ℕ
  date : ℤ
  expected_output : ℝ

/-- A provider forecast point after successful field extraction: period_end
parsed from ISO-8601 into an instant, plus the five numeric measures read in
update_forecast_data. -/
structure ProviderPoint where
  period_end : ℤ
  ghi : ℚ
  dni : ℚ
  dhi : ℚ
  air_temp : ℚ
  cloud_opacity : ℚ
deriving DecidableEq

/-- The filter_by condition of the existing-forecast lookup in
update_forecast_data: plant_id and timestamp both match. -/
def sameKey (f : Forecast) (pid : ℕ) (ts : ℤ) : Bool :=
  f.plant_id == pid && f.timestamp == ts

/-- Whether the store holds some row with the given (plant_id, timestamp) key;
the condition under which the first branch of the upsert runs. -/
def hasKey (store : List Forecast) (pid : ℕ) (ts : ℤ) : Bool :=
  store.any (fun f => sameKey f pid ts)

/-- Overwrite the five measured fields of a row in place, as the
existing_forecast branch of update_forecast_data does. -/
def applyFields (f : Forecast) (d : ProviderPoint) : Forecast :=
  { f with ghi := d.ghi, dni := d.dni, dhi := d.dhi,
           air_temp := d.air_temp, cloud_opacity := d.cloud_opacity }

/-- Update the first row matching the key, leaving everything else unchanged:
the effect of query .first() followed by attribute assignment. -/
def updateFirst (pid : ℕ) (d : ProviderPoint) : List Forecast → List Forecast
  | [] => []
  | f :: rest =>
      if sameKey f pid d.period_end then applyFields f d :: rest
      else f :: updateFirst pid d rest

/-- A fresh Forecast row built from a provider point, as in the else branch of
update_forecast_data. -/
def newForecast (pid : ℕ) (d : ProviderPoint) : Forecast :=
  { plant_id := pid, timestamp := d.period_end, ghi := d.ghi, dni := d.dni,
    dhi := d.dhi, air_temp := d.air_temp, cloud_opacity := d.cloud_opacity }

/-- One iteration of the inner loop of update_forecast_data: look up the row
by (plant_id, period_end); overwrite its fields if present, otherwise add a
new row (session add appends; the session sees it from then on). -/
def upsertPoint (pid : ℕ) (store : List Forecast) (d : ProviderPoint) : List Forecast :=
  if hasKey store pid d.period_end then updateFirst pid d store
  else store ++ [newForecast pid d]

/-- The inner loop of update_forecast_data for one plant: fold the upsert over
the fetched points in order. -/
def reconcilePlant (pid : ℕ) (store : List Forecast) (points : List ProviderPoint) : List Forecast :=
  points.foldl (upsertPoint pid) store

/-- First row of the store matching the key; the value of the query .first()
call in update_forecast_data. -/
def findFirst (store : List Forecast) (pid : ℕ) (ts : ℤ) : Option Forecast :=
  store.find? (fun f => sameKey f pid ts)

/-- The five measured fields of a stored row agree with those of a provider
point. -/
def fieldsEq (f : Forecast) (d : ProviderPoint) : Prop :=
  f.ghi = d.ghi ∧ f.dni = d.dni ∧ f.dhi = d.dhi ∧
    f.air_temp = d.air_temp ∧ f.cloud_opacity = d.cloud_opacity

/-- A sequence of reconcile calls, each for one plant id over its list of
provider points, folded over the store: the shape of repeated
update_forecast_data runs. -/
def applyCalls (store : List Forecast) (calls : List (ℕ × List ProviderPoint)) : List Forecast :=
  calls.foldl (fun st c => reconcilePlant c.1 st c.2) store

/-- Key uniqueness invariant of the forecast table: no two rows share the
(plant_id, timestamp) pair. -/
def uniqueKeys (store : List Forecast) : Prop :=
  store.Pairwise (fun f g => ¬(f.plant_id = g.plant_id ∧ f.timestamp = g.timestamp))

/-- Degree to radian conversion, as math.radians. -/
noncomputable def radians (deg : ℚ) : ℝ :=
  (deg : ℝ) * Real.pi / 180

/-- Per-point instantaneous contribution, the generator expression inside
calculate_plant_performance: dni times the absolute sine of the tilt times
the cosine of the azimuth, plus dhi weighted by (1 + cos tilt) / 2, plus ghi
times 0.2 weighted by (1 - cos tilt) / 2, all angles in radians. -/
noncomputable def contribution (plant : Plant) (f : Forecast) : ℝ :=
  (f.dni : ℝ) * |Real.sin (radians plant.panel_angle)| * Real.cos (radians plant.panel_azimuth)
    + (f.dhi : ℝ) * (1 + Real.cos (radians plant.panel_angle)) / 2
    + (f.ghi : ℝ) * 0.2 * (1 - Real.cos (radians plant.panel_angle)) / 2

/-- The day window condition of the Forecast query in
calculate_plant_performance: timestamp at least today and strictly before
today plus one day (1440 minutes). -/
def inDayWindow (todayStart ts : ℤ) : Bool :=
  decide (todayStart ≤ ts) && decide (ts < todayStart + 1440)

/-- Rows the Forecast query returns for one plant and one day window. -/
def dayForecasts (store : List Forecast) (plant : Plant) (todayStart : ℤ) : List Forecast :=
  store.filter (fun f => f.plant_id == plant.id && inDayWindow todayStart f.timestamp)

/-- The total_energy expression of calculate_plant_performance: sum over the
window of contribution times plant size times the 0.15 panel efficiency,
divided by 1000 to convert to kWh. -/
noncomputable def total_energy (plant : Plant) (store : List Forecast) (todayStart : ℤ) : ℝ :=
  ((dayForecasts store plant todayStart).map
      (fun f => contribution plant f * (plant.size : ℝ) * 0.15)).sum / 1000

/-- The estimator aggregation as the spec words it, for comparison with
total_energy: sum the per-point contributions over the window, then multiply
the sum by plant area and the fixed 0.15 efficiency and divide by 1000. -/
noncomputable def spec_estimate (plant : Plant) (store : List Forecast) (todayStart : ℤ) : ℝ :=
  ((dayForecasts store plant todayStart).map (fun f => contribution plant f)).sum
      * (plant.size : ℝ) * 0.15 / 1000

/-- One run of calculate_plant_performance: for every plant in the directory,
compute total_energy for today and add a new PlantPerformance row to the
session, then commit; the ledger is the PlantPerformance table in insertion
order.  There is no lookup of an existing row for the same plant and date. -/
noncomputable def calculate_plant_performance (plants : List Plant) (store : List Forecast)
    (ledger : List PlantPerformance) (todayStart : ℤ) : List PlantPerformance :=
  plants.foldl
    (fun session p =>
      session ++ [{ plant_id := p.id, date := todayStart,
                    expected_output := total_energy p store todayStart }]) ledger

/-- A provider forecast entry as found in the JSON body, before field access:
each field may be missing. -/
structure RawPoint where
  period_end : Option ℤ
  ghi : Option ℚ
  dni : Option ℚ
  dhi : Option ℚ
  air_temp : Option ℚ
  cloud_opacity : Option ℚ
deriving DecidableEq

/-- Field access on one raw entry, as performed inside the loop of
update_forecast_data; a missing field or unparsable period_end means the
subscript or fromisoformat call raises. -/
def parsePoint (r : RawPoint) : Option ProviderPoint :=
  match r.period_end, r.ghi, r.dni, r.dhi, r.air_temp, r.cloud_opacity with
  | some ts, some g, some dn, some dh, some a, some c =>
      some { period_end := ts, ghi := g, dni := dn, dhi := dh,
             air_temp := a, cloud_opacity := c }
  | _, _, _, _, _, _ => none

/-- A 200 response body: either it has the forecasts key with a list of raw
entries, or the key is absent and the subscript raises KeyError. -/
inductive Body where
  | withForecasts (points : List RawPoint)
  | missingForecastsKey
deriving DecidableEq

/-- Outcome of the requests.get call in get_solcast_forecast: a 200 response
with a body, a non-200 status, or an exception from the request itself. -/
inductive HttpResponse where
  | success (body : Body)
  | failure (status : ℕ)
  | networkError
deriving DecidableEq

/-- Python exceptions that can escape the fetch and reconcile code: KeyError
from a missing forecasts key, a requests exception from the network call, and
KeyError or ValueError from a malformed point. -/
inductive FetchErr where
  | keyError
  | requestException
  | pointParseError
deriving DecidableEq

/-- get_solcast_forecast: on status 200 return the forecasts list (raising
KeyError when the key is missing); on any other status log the failure and
return None; a network exception propagates. -/
def get_solcast_forecast : HttpResponse → Except FetchErr (Option (List RawPoint))
  | .success (.withForecasts pts) => .ok (some pts)
  | .success .missingForecastsKey => .error .keyError
  | .failure _ => .ok none
  | .networkError => .error .requestException

/-- The inner loop of update_forecast_data over the raw entries of one plant:
extract the fields of each entry and upsert; the first malformed entry raises
and aborts the whole pass. -/
def reconcileRaw (pid : ℕ) (store : List Forecast) :
    List RawPoint → Except FetchErr (List Forecast)
  | [] => .ok store
  | r :: rest =>
      match parsePoint r with
      | none => .error .pointParseError
      | some d => reconcileRaw pid (upsertPoint pid store d) rest

/-- update_forecast_data: iterate all plants, fetch, and reconcile when the
fetch returned data; a falsy fetch result (None) skips the plant; any raised
exception propagates and aborts the remaining plants and the final commit. -/
def update_forecast_data (store : List Forecast) :
    List (Plant × HttpResponse) → Except FetchErr (List Forecast)
  | [] => .ok store
  | (p, resp) :: rest =>
      match get_solcast_forecast resp with
      | .error e => .error e
      | .ok none => update_forecast_data store rest
      | .ok (some raw) =>
          match reconcileRaw p.id store raw with
          | .error e => .error e
          | .ok st' => update_forecast_data st' rest

/-- The durable content of the forecast table after a sync pass: the single
commit at the end of update_forecast_data runs only when no exception was
raised, so an aborted pass leaves the committed table unchanged. -/
def committedStore (plants : List (Plant × HttpResponse)) (store : List Forecast) : List Forecast :=
  match update_forecast_data store plants with
  | .ok st' => st'
  | .error _ => store

/-- Whether processing one plant raises: a fetch exception, or a 200 response
containing a malformed point. -/
def plantFetchAborts (pr : Plant × HttpResponse) : Bool :=
  match get_solcast_forecast pr.2 with
  | .error _ => true
  | .ok none => false
  | .ok (some raw) => raw.any (fun r => (parsePoint r).isNone)

/-- Reference per-plant step with isolation: a plant whose fetch produced no
data is skipped, otherwise its parsed points are reconciled. -/
def syncStep (st : List Forecast) (pr : Plant × HttpResponse) : List Forecast :=
  match get_solcast_forecast pr.2 with
  | .ok (some raw) => reconcilePlant pr.1.id st (raw.filterMap parsePoint)
  | _ => st

/-- User row: mirrors the User model in src/main.py. -/
structure User where
  id : ℕ
  username : String
  password : String
deriving DecidableEq

/-- Result of an authenticated read endpoint: a 404 with a message, or a 200
with the serialized data. -/
inductive ApiResult (α : Type) where
  | notFound (msg : String)
  | ok (data : α)
deriving DecidableEq

/-- The JSON projection of a Forecast row returned by the forecast endpoint. -/
structure ForecastOut where
  timestamp : ℤ
  ghi : ℚ
  dni : ℚ
  dhi : ℚ
  air_temp : ℚ
  cloud_opacity : ℚ
deriving DecidableEq

/-- Serialize one Forecast row as the forecast endpoint does. -/
def toForecastOut (f : Forecast) : ForecastOut :=
  { timestamp := f.timestamp, ghi := f.ghi, dni := f.dni, dhi := f.dhi,
    air_temp := f.air_temp, cloud_opacity := f.cloud_opacity }

/-- The JSON projection of a PlantPerformance row returned by the performance
endpoint. -/
structure PerformanceOut where
  date : ℤ
  expected_output : ℝ

/-- Serialize one PlantPerformance row as the performance endpoint does. -/
def toPerformanceOut (r : PlantPerformance) : PerformanceOut :=
  { date := r.date, expected_output := r.expected_output }

/-- Insertion step for ordering forecasts by ascending timestamp. -/
def insertByTimestamp (f : Forecast) : List Forecast → List Forecast
  | [] => [f]
  | g :: rest =>
      if f.timestamp ≤ g.timestamp then f :: g :: rest else g :: insertByTimestamp f rest

/-- Ordering of the forecast query results (order_by timestamp ascending). -/
def sortByTimestamp (l : List Forecast) : List Forecast :=
  l.foldr insertByTimestamp []

/-- Insertion step for ordering performance rows by descending date. -/
def insertByDateDesc (r : PlantPerformance) : List PlantPerformance → List PlantPerformance
  | [] => [r]
  | g :: rest =>
      if g.date ≤ r.date then r :: g :: rest else g :: insertByDateDesc r rest

/-- Ordering of the performance query results (order_by date descending). -/
def sortByDateDesc (l : List PlantPerformance) : List PlantPerformance :=
  l.foldr insertByDateDesc []

/-- The forecast read endpoint: resolve the JWT identity to a User row, then
look up the plant by owner and name; missing user or plant is a 404, else the
plant's forecasts ordered by timestamp are returned. -/
def get_forecast (users : List User) (plants : List Plant) (store : List Forecast)
    (current_user plant_name : String) : ApiResult (List ForecastOut) :=
  match users.find? (fun u => u.username == current_user) with
  | none => .notFound "User not found"
  | some user =>
      match plants.find? (fun p => p.user_id == user.id && p.name == plant_name) with
      | none => .notFound "Plant not found"
      | some plant =>
          .ok ((sortByTimestamp (store.filter (fun f => f.plant_id == plant.id))).map toForecastOut)

/-- The performance read endpoint: same user and plant resolution as the
forecast endpoint, then the plant's most recent thirty performance rows by
descending date. -/
def get_performance (users : List User) (plants : List Plant)
    (ledger : List PlantPerformance) (current_user plant_name : String) :
    ApiResult (List PerformanceOut) :=
  match users.find? (fun u => u.username == current_user) with
  | none => .notFound "User not found"
  | some user =>
      match plants.find? (fun p => p.user_id == user.id && p.name == plant_name) with
      | none => .notFound "Plant not found"
      | some plant =>
          .ok (((sortByDateDesc (ledger.filter (fun r => r.plant_id == plant.id))).take 30).map
            toPerformanceOut)

/-- Concrete plant of the spec scenario: tilt 30, azimuth 180, area 10. -/
def c1Plant : Plant :=
  { id := 1, name := "plant1", user_id := 1, latitude := 7, longitude := 80,
    capacity := 5, size := 10, panel_angle := 30, panel_azimuth := 180 }

/-- Concrete forecast point of the spec scenario: GHI 500, DNI 600, DHI 100,
noon timestamp inside the day window starting at 0. -/
def c1Point : Forecast :=
  { plant_id := 1, timestamp := 720, ghi := 500, dni := 600, dhi := 100,
    air_temp := 25, cloud_opacity := 1/2 }

/-- A stored point that lies outside the day window starting at 0. -/
def latePoint : Forecast :=
  { plant_id := 1, timestamp := 2000, ghi := 500, dni := 600, dhi := 100,
    air_temp := 25, cloud_opacity := 1/2 }

/-- A plant with tilt, azimuth, and area all out of range. -/
def badPlant : Plant :=
  { id := 7, name := "bad", user_id := 1, latitude := 0, longitude := 0,
    capacity := 1, size := -5, panel_angle := 200, panel_azimuth := 400 }

/-- A plant facing north (azimuth 0) used for the non-negativity witness. -/
def northPlant : Plant :=
  { id := 3, name := "north", user_id := 1, latitude := 7, longitude := 80,
    capacity := 5, size := 10, panel_angle := 30, panel_azimuth := 0 }

/-- Two plants used by the orchestrator scenarios. -/
def plantA : Plant :=
  { id := 1, name := "pA", user_id := 1, latitude := 7, longitude := 80,
    capacity := 5, size := 10, panel_angle := 30, panel_azimuth := 180 }

def plantB : Plant :=
  { id := 2, name := "pB", user_id := 1, latitude := 8, longitude := 81,
    capacity := 5, size := 12, panel_angle := 20, panel_azimuth := 170 }

/-- A fully populated raw provider entry. -/
def goodRaw : RawPoint :=
  { period_end := some 0, ghi := some 500, dni := some 600, dhi := some 100,
    air_temp := some 25, cloud_opacity := some (1/2) }

/-- A raw provider entry with the ghi field missing. -/
def badRaw : RawPoint :=
  { period_end := some 0, ghi := none, dni := some 600, dhi := some 100,
    air_temp := some 25, cloud_opacity := some (1/2) }

/-- Sync input where the first plant's response body lacks the forecasts key
and the second plant's response is good. -/
def mixedMalformed : List (Plant × HttpResponse) :=
  [(plantA, .success .missingForecastsKey), (plantB, .success (.withForecasts [goodRaw]))]

/-- Sync input where the first plant's fetch got a non-200 status and the
second plant's response is good. -/
def mixedHttpFail : List (Plant × HttpResponse) :=
  [(plantA, .failure 500), (plantB, .success (.withForecasts [goodRaw]))]

/-- Two users and a plant owned by the second, for the ownership scenario. -/
def alice : User := { id := 1, username := "alice", password := "pw1" }

def bob : User := { id := 2, username := "bob", password := "pw2" }

/-- A plant named solar1 owned by bob. -/
def bobPlant : Plant :=
  { id := 9, name := "solar1", user_id := 2, latitude := 7, longitude := 80,
    capacity := 5, size := 10, panel_angle := 30, panel_azimuth := 180 }

@[simp] lemma sameKey_applyFields (f : Forecast) (d : ProviderPoint) (pid : ℕ) (ts : ℤ) :
    sameKey (applyFields f d) pid ts = sameKey f pid ts := rfl

@[simp] lemma sameKey_newForecast (pid pid2 : ℕ) (d : ProviderPoint) (ts : ℤ) :
    sameKey (newForecast pid d) pid2 ts = ((pid == pid2) && (d.period_end == ts)) := rfl

lemma sameKey_iff (f : Forecast) (pid : ℕ) (ts : ℤ) :
    sameKey f pid ts = true ↔ f.plant_id = pid ∧ f.timestamp = ts := by
  simp [sameKey]

@[simp] lemma hasKey_nil (pid : ℕ) (ts : ℤ) : hasKey [] pid ts = false := rfl

@[simp] lemma hasKey_cons (f : Forecast) (s : List Forecast) (pid : ℕ) (ts : ℤ) :
    hasKey (f :: s) pid ts = (sameKey f pid ts || hasKey s pid ts) := by
  simp [hasKey]

@[simp] lemma hasKey_append (s t : List Forecast) (pid : ℕ) (ts : ℤ) :
    hasKey (s ++ t) pid ts = (hasKey s pid ts || hasKey t pid ts) := by
  simp [hasKey]

@[simp] lemma hasKey_updateFirst (pid : ℕ) (d : ProviderPoint) (s : List Forecast)
    (pid2 : ℕ) (ts : ℤ) :
    hasKey (updateFirst pid d s) pid2 ts = hasKey s pid2 ts := by
  induction s with
  | nil => rfl
  | cons f rest ih =>
      by_cases h : sameKey f pid d.period_end = true
      · simp [updateFirst, h]
      · simp only [Bool.not_eq_true] at h
        simp [updateFirst, h, ih]

lemma upsertPoint_of_hasKey (pid : ℕ) (s : List Forecast) (d : ProviderPoint)
    (h : hasKey s pid d.period_end = true) :
    upsertPoint pid s d = updateFirst pid d s := by
  simp only [upsertPoint, h, if_true]

lemma upsertPoint_of_not_hasKey (pid : ℕ) (s : List Forecast) (d : ProviderPoint)
    (h : hasKey s pid d.period_end = false) :
    upsertPoint pid s d = s ++ [newForecast pid d] := by
  simp only [upsertPoint, h, Bool.false_eq_true, if_false]

lemma hasKey_upsertPoint_self (pid : ℕ) (s : List Forecast) (d : ProviderPoint) :
    hasKey (upsertPoint pid s d) pid d.period_end = true := by
  unfold upsertPoint
  by_cases h : hasKey s pid d.period_end = true
  · simp [h]
  · simp only [Bool.not_eq_true] at h
    simp [h]

lemma hasKey_upsertPoint_mono (pid : ℕ) (s : List Forecast) (d : ProviderPoint)
    (pid2 : ℕ) (ts : ℤ) (h : hasKey s pid2 ts = true) :
    hasKey (upsertPoint pid s d) pid2 ts = true := by
  unfold upsertPoint
  by_cases hk : hasKey s pid d.period_end = true
  · simpa [hk] using h
  · simp only [Bool.not_eq_true] at hk
    simp [hk, h]

lemma hasKey_reconcilePlant_mono (pid : ℕ) (pts : List ProviderPoint)
    (s : List Forecast) (pid2 : ℕ) (ts : ℤ) (h : hasKey s pid2 ts = true) :
    hasKey (reconcilePlant pid s pts) pid2 ts = true := by
  induction pts generalizing s with
  | nil => exact h
  | cons d rest ih =>
      simp only [reconcilePlant, List.foldl_cons]
      exact ih (upsertPoint pid s d) (hasKey_upsertPoint_mono pid s d pid2 ts h)

lemma hasKey_reconcilePlant_mem (pid : ℕ) (pts : List ProviderPoint)
    (s : List Forecast) (d : ProviderPoint) (hmem : d ∈ pts) :
    hasKey (reconcilePlant pid s pts) pid d.period_end = true := by
  induction pts generalizing s with
  | nil => cases hmem
  | cons e rest ih =>
      rcases List.mem_cons.mp hmem with h | h
      · subst h
        simpa [reconcilePlant] using
          hasKey_reconcilePlant_mono pid rest (upsertPoint pid s d) pid d.period_end
            (hasKey_upsertPoint_self pid s d)
      · simpa [reconcilePlant] using ih (upsertPoint pid s e) h

@[simp] lemma applyFields_applyFields (f : Forecast) (d e : ProviderPoint) :
    applyFields (applyFields f d) e = applyFields f e := rfl

lemma updateFirst_eq_of_not_hasKey (pid : ℕ) (d : ProviderPoint) (s : List Forecast)
    (h : hasKey s pid d.period_end = false) : updateFirst pid d s = s := by
  induction s with
  | nil => rfl
  | cons f rest ih =>
      simp only [hasKey_cons, Bool.or_eq_false_iff] at h
      simp [updateFirst, h.1, ih h.2]

lemma updateFirst_updateFirst_same (pid : ℕ) (d e : ProviderPoint) (s : List Forecast)
    (h : d.period_end = e.period_end) :
    updateFirst pid e (updateFirst pid d s) = updateFirst pid e s := by
  induction s with
  | nil => rfl
  | cons f rest ih =>
      by_cases hf : sameKey f pid d.period_end = true
      · have hf2 : sameKey f pid e.period_end = true := h ▸ hf
        simp [updateFirst, hf, hf2]
      · simp only [Bool.not_eq_true] at hf
        have hf2 : sameKey f pid e.period_end = false := h ▸ hf
        simp [updateFirst, hf, hf2, ih]

lemma updateFirst_append_left (pid : ℕ) (d : ProviderPoint) (s t : List Forecast)
    (h : hasKey s pid d.period_end = true) :
    updateFirst pid d (s ++ t) = updateFirst pid d s ++ t := by
  induction s with
  | nil => simp at h
  | cons f rest ih =>
      by_cases hf : sameKey f pid d.period_end = true
      · simp [updateFirst, hf]
      · simp only [Bool.not_eq_true] at hf
        simp only [hasKey_cons, hf, Bool.false_or] at h
        simp [updateFirst, hf, ih h]

lemma updateFirst_append_right (pid : ℕ) (d : ProviderPoint) (s t : List Forecast)
    (h : hasKey s pid d.period_end = false) :
    updateFirst pid d (s ++ t) = s ++ updateFirst pid d t := by
  induction s with
  | nil => rfl
  | cons f rest ih =>
      simp only [hasKey_cons, Bool.or_eq_false_iff] at h
      simp [updateFirst, h.1, ih h.2]

lemma upsertPoint_upsertPoint_same (pid : ℕ) (s : List Forecast) (d e : ProviderPoint)
    (h : d.period_end = e.period_end) :
    upsertPoint pid (upsertPoint pid s d) e = upsertPoint pid s e := by
  by_cases hk : hasKey s pid d.period_end = true
  · have hk2 : hasKey s pid e.period_end = true := h ▸ hk
    simp only [upsertPoint, hk, hk2, if_true, hasKey_updateFirst, h ▸ hk]
    exact updateFirst_updateFirst_same pid d e s h
  · simp only [Bool.not_eq_true] at hk
    have hk2 : hasKey s pid e.period_end = false := h ▸ hk
    have hnew : hasKey (s ++ [newForecast pid d]) pid e.period_end = true := by
      simp [h ▸ hk2, h]
    simp only [upsertPoint, hk, hk2, Bool.false_eq_true, if_false, hnew, if_true]
    rw [updateFirst_append_right pid e s _ hk2]
    have hsk : sameKey (newForecast pid d) pid e.period_end = true := by
      simp [sameKey_newForecast, h]
    have : updateFirst pid e [newForecast pid d] = [newForecast pid e] := by
      simp only [updateFirst, hsk, if_true]
      simp [applyFields, newForecast, h]
    rw [this]

lemma updateFirst_comm (pid : ℕ) (d e : ProviderPoint) (s : List Forecast)
    (h : d.period_end ≠ e.period_end) :
    updateFirst pid e (updateFirst pid d s) = updateFirst pid d (updateFirst pid e s) := by
  induction s with
  | nil => rfl
  | cons f rest ih =>
      by_cases h1 : sameKey f pid d.period_end = true
      · have h2 : sameKey f pid e.period_end = false := by
          rcases sameKey_iff f pid d.period_end |>.mp h1 with ⟨hp, ht⟩
          simp only [sameKey, Bool.and_eq_false_iff]
          right
          simp [ht, h]
        simp [updateFirst, h1, h2]
      · simp only [Bool.not_eq_true] at h1
        by_cases h2 : sameKey f pid e.period_end = true
        · simp [updateFirst, h1, h2]
        · simp only [Bool.not_eq_true] at h2
          simp [updateFirst, h1, h2, ih]

lemma upsertPoint_updateFirst_comm (pid : ℕ) (d e : ProviderPoint) (s : List Forecast)
    (h : d.period_end ≠ e.period_end) :
    upsertPoint pid (updateFirst pid d s) e = updateFirst pid d (upsertPoint pid s e) := by
  by_cases hk : hasKey s pid e.period_end = true
  · simp only [upsertPoint, hasKey_updateFirst, hk, if_true]
    exact updateFirst_comm pid d e s h
  · simp only [Bool.not_eq_true] at hk
    simp only [upsertPoint, hasKey_updateFirst, hk, Bool.false_eq_true, if_false]
    by_cases hd : hasKey s pid d.period_end = true
    · rw [updateFirst_append_left pid d s _ hd]
    · simp only [Bool.not_eq_true] at hd
      rw [updateFirst_eq_of_not_hasKey pid d s hd]
      have : hasKey (s ++ [newForecast pid e]) pid d.period_end = false := by
        simp [hd, sameKey_newForecast, Ne.symm h]
      rw [updateFirst_eq_of_not_hasKey pid d _ this]

lemma reconcilePlant_cons (pid : ℕ) (s : List Forecast) (d : ProviderPoint)
    (rest : List ProviderPoint) :
    reconcilePlant pid s (d :: rest) = reconcilePlant pid (upsertPoint pid s d) rest := rfl

lemma reconcilePlant_updateFirst_absorb (pid : ℕ) (d : ProviderPoint)
    (pts : List ProviderPoint) (s : List Forecast)
    (h : ∃ e ∈ pts, e.period_end = d.period_end) :
    reconcilePlant pid (updateFirst pid d s) pts = reconcilePlant pid s pts := by
  induction pts generalizing s d with
  | nil => simp at h
  | cons e rest ih =>
      by_cases hpe : e.period_end = d.period_end
      · have key : upsertPoint pid (updateFirst pid d s) e = upsertPoint pid s e := by
          by_cases hk : hasKey s pid d.period_end = true
          · have hk2 : hasKey s pid e.period_end = true := hpe ▸ hk
            simp only [upsertPoint, hasKey_updateFirst, hk2, if_true]
            exact updateFirst_updateFirst_same pid d e s hpe.symm
          · simp only [Bool.not_eq_true] at hk
            rw [updateFirst_eq_of_not_hasKey pid d s hk]
        rw [reconcilePlant_cons, reconcilePlant_cons, key]
      · rcases h with ⟨e0, he0, hpe0⟩
        have he0r : e0 ∈ rest := by
          rcases List.mem_cons.mp he0 with hh | hh
          · exact absurd (hh ▸ hpe0) hpe
          · exact hh
        rw [reconcilePlant_cons, reconcilePlant_cons,
          upsertPoint_updateFirst_comm pid d e s (fun hEq => hpe hEq.symm)]
        exact ih d (upsertPoint pid s e) ⟨e0, he0r, hpe0⟩

lemma findFirst_cons_pos (f : Forecast) (s : List Forecast) (pid : ℕ) (ts : ℤ)
    (h : sameKey f pid ts = true) : findFirst (f :: s) pid ts = some f := by
  simp [findFirst, List.find?, h]

lemma findFirst_cons_neg (f : Forecast) (s : List Forecast) (pid : ℕ) (ts : ℤ)
    (h : sameKey f pid ts = false) : findFirst (f :: s) pid ts = findFirst s pid ts := by
  simp [findFirst, List.find?, h]

lemma findFirst_eq_none_of_not_hasKey (s : List Forecast) (pid : ℕ) (ts : ℤ)
    (h : hasKey s pid ts = false) : findFirst s pid ts = none := by
  induction s with
  | nil => rfl
  | cons f rest ih =>
      simp only [hasKey_cons, Bool.or_eq_false_iff] at h
      rw [findFirst_cons_neg f rest pid ts h.1]
      exact ih h.2

lemma findFirst_append_of_some (s t : List Forecast) (pid : ℕ) (ts : ℤ) (f : Forecast)
    (h : findFirst s pid ts = some f) : findFirst (s ++ t) pid ts = some f := by
  induction s with
  | nil => simp [findFirst] at h
  | cons g rest ih =>
      by_cases hg : sameKey g pid ts = true
      · rw [findFirst_cons_pos g rest pid ts hg] at h
        rw [List.cons_append, findFirst_cons_pos g (rest ++ t) pid ts hg]
        exact h
      · simp only [Bool.not_eq_true] at hg
        rw [findFirst_cons_neg g rest pid ts hg] at h
        rw [List.cons_append, findFirst_cons_neg g (rest ++ t) pid ts hg]
        exact ih h

lemma findFirst_updateFirst_ne (pid : ℕ) (d : ProviderPoint) (s : List Forecast) (ts : ℤ)
    (h : d.period_end ≠ ts) :
    findFirst (updateFirst pid d s) pid ts = findFirst s pid ts := by
  induction s with
  | nil => rfl
  | cons f rest ih =>
      by_cases hf : sameKey f pid d.period_end = true
      · have hf2 : sameKey f pid ts = false := by
          rcases sameKey_iff f pid d.period_end |>.mp hf with ⟨hp, ht⟩
          simp only [sameKey, Bool.and_eq_false_iff]
          right
          simp [ht, h]
        simp only [updateFirst, hf, if_true]
        rw [findFirst_cons_neg _ rest pid ts (by simpa using hf2),
          findFirst_cons_neg f rest pid ts hf2]
      · simp only [Bool.not_eq_true] at hf
        by_cases hf2 : sameKey f pid ts = true
        · simp only [updateFirst, hf, Bool.false_eq_true, if_false]
          rw [findFirst_cons_pos f _ pid ts hf2, findFirst_cons_pos f rest pid ts hf2]
        · simp only [Bool.not_eq_true] at hf2
          simp only [updateFirst, hf, Bool.false_eq_true, if_false]
          rw [findFirst_cons_neg f _ pid ts hf2, findFirst_cons_neg f rest pid ts hf2]
          exact ih

lemma findFirst_upsertPoint_ne (pid : ℕ) (d : ProviderPoint) (s : List Forecast) (ts : ℤ)
    (f : Forecast) (h : d.period_end ≠ ts) (hf : findFirst s pid ts = some f) :
    findFirst (upsertPoint pid s d) pid ts = some f := by
  unfold upsertPoint
  by_cases hk : hasKey s pid d.period_end = true
  · simp only [hk, if_true]
    rw [findFirst_updateFirst_ne pid d s ts h]
    exact hf
  · simp only [Bool.not_eq_true] at hk
    simp only [hk, Bool.false_eq_true, if_false]
    exact findFirst_append_of_some s _ pid ts f hf

lemma findFirst_reconcilePlant_ne (pid : ℕ) (pts : List ProviderPoint)
    (s : List Forecast) (ts : ℤ) (f : Forecast)
    (h : ∀ e ∈ pts, e.period_end ≠ ts) (hf : findFirst s pid ts = some f) :
    findFirst (reconcilePlant pid s pts) pid ts = some f := by
  induction pts generalizing s with
  | nil => exact hf
  | cons d rest ih =>
      rw [reconcilePlant_cons]
      exact ih (upsertPoint pid s d) (fun e he => h e (List.mem_cons_of_mem d he))
        (findFirst_upsertPoint_ne pid d s ts f (h d (List.mem_cons_self d rest)) hf)

lemma findFirst_updateFirst_self (pid : ℕ) (d : ProviderPoint) (s : List Forecast)
    (hk : hasKey s pid d.period_end = true) :
    ∃ f, findFirst (updateFirst pid d s) pid d.period_end = some f ∧ fieldsEq f d := by
  induction s with
  | nil => simp at hk
  | cons g rest ih =>
      by_cases hg : sameKey g pid d.period_end = true
      · refine ⟨applyFields g d, ?_, ?_⟩
        · simp only [updateFirst, hg, if_true]
          exact findFirst_cons_pos _ rest pid d.period_end (by simpa using hg)
        · simp [applyFields, fieldsEq]
      · simp only [Bool.not_eq_true] at hg
        simp only [hasKey_cons, hg, Bool.false_or] at hk
        rcases ih hk with ⟨f, hf, hfe⟩
        refine ⟨f, ?_, hfe⟩
        simp only [updateFirst, hg, Bool.false_eq_true, if_false]
        rw [findFirst_cons_neg g _ pid d.period_end hg]
        exact hf

lemma findFirst_upsertPoint_self (pid : ℕ) (d : ProviderPoint) (s : List Forecast) :
    ∃ f, findFirst (upsertPoint pid s d) pid d.period_end = some f ∧ fieldsEq f d := by
  unfold upsertPoint
  by_cases hk : hasKey s pid d.period_end = true
  · simp only [hk, if_true]
    exact findFirst_updateFirst_self pid d s hk
  · simp only [Bool.not_eq_true] at hk
    simp only [hk, Bool.false_eq_true, if_false]
    refine ⟨newForecast pid d, ?_, ?_⟩
    · have hnone := findFirst_eq_none_of_not_hasKey s pid d.period_end hk
      rw [findFirst] at hnone
      rw [findFirst, List.find?_append, hnone]
      simp [List.find?, sameKey_newForecast]
    · simp [newForecast, fieldsEq]

lemma updateFirst_eq_self_of_fieldsEq (pid : ℕ) (d : ProviderPoint) (s : List Forecast)
    (f : Forecast) (hf : findFirst s pid d.period_end = some f) (hfe : fieldsEq f d) :
    updateFirst pid d s = s := by
  induction s with
  | nil => rfl
  | cons g rest ih =>
      by_cases hg : sameKey g pid d.period_end = true
      · rw [findFirst_cons_pos g rest pid d.period_end hg, Option.some.injEq] at hf
        subst hf
        rcases hfe with ⟨h1, h2, h3, h4, h5⟩
        simp only [updateFirst, hg, if_true]
        congr 1
        cases g
        simp_all [applyFields]
      · simp only [Bool.not_eq_true] at hg
        rw [findFirst_cons_neg g rest pid d.period_end hg] at hf
        simp only [updateFirst, hg, Bool.false_eq_true, if_false]
        rw [ih hf]

/-- C2: reconciliation is idempotent.  For every plant id, every stored
forecast table, and every list of provider points, running the reconcile pass
of update_forecast_data twice with the same points leaves the forecast store
with exactly the same rows (hence the same field values) as running it once. -/
theorem reconcile_idempotent (pid : ℕ) (store : List Forecast) (pts : List ProviderPoint) :
    reconcilePlant pid (reconcilePlant pid store pts) pts = reconcilePlant pid store pts := by
  induction pts generalizing store with
  | nil => rfl
  | cons d rest ih =>
      have hT : hasKey (reconcilePlant pid (upsertPoint pid store d) rest) pid
          d.period_end = true :=
        hasKey_reconcilePlant_mono pid rest _ pid d.period_end
          (hasKey_upsertPoint_self pid store d)
      show reconcilePlant pid
          (upsertPoint pid (reconcilePlant pid (upsertPoint pid store d) rest) d) rest
        = reconcilePlant pid (upsertPoint pid store d) rest
      rw [upsertPoint_of_hasKey pid _ d hT]
      by_cases hdup : ∃ e ∈ rest, e.period_end = d.period_end
      · rw [reconcilePlant_updateFirst_absorb pid d rest _ hdup]
        exact ih (upsertPoint pid store d)
      · push_neg at hdup
        obtain ⟨f, hf, hfe⟩ := findFirst_upsertPoint_self pid d store
        have hfT : findFirst (reconcilePlant pid (upsertPoint pid store d) rest) pid
            d.period_end = some f :=
          findFirst_reconcilePlant_ne pid rest (upsertPoint pid store d) d.period_end f hdup hf
        rw [updateFirst_eq_self_of_fieldsEq pid d _ f hfT hfe]
        exact ih (upsertPoint pid store d)

lemma keys_mem_updateFirst (pid : ℕ) (d : ProviderPoint) (s : List Forecast)
    (g : Forecast) (hg : g ∈ updateFirst pid d s) :
    ∃ g0 ∈ s, g.plant_id = g0.plant_id ∧ g.timestamp = g0.timestamp := by
  induction s with
  | nil => cases hg
  | cons f rest ih =>
      by_cases hk : sameKey f pid d.period_end = true
      · simp only [updateFirst, hk, if_true] at hg
        rcases List.mem_cons.mp hg with h | h
        · exact ⟨f, List.mem_cons_self f rest, by simp [h, applyFields]⟩
        · exact ⟨g, List.mem_cons_of_mem f h, rfl, rfl⟩
      · simp only [Bool.not_eq_true] at hk
        simp only [updateFirst, hk, Bool.false_eq_true, if_false] at hg
        rcases List.mem_cons.mp hg with h | h
        · exact ⟨f, List.mem_cons_self f rest, by simp [h]⟩
        · rcases ih h with ⟨g0, hg0, hkeys⟩
          exact ⟨g0, List.mem_cons_of_mem f hg0, hkeys⟩

lemma uniqueKeys_updateFirst (pid : ℕ) (d : ProviderPoint) (s : List Forecast)
    (h : uniqueKeys s) : uniqueKeys (updateFirst pid d s) := by
  induction s with
  | nil => exact h
  | cons f rest ih =>
      rcases List.pairwise_cons.mp h with ⟨hf, hrest⟩
      by_cases hk : sameKey f pid d.period_end = true
      · simp only [updateFirst, hk, if_true]
        exact List.pairwise_cons.mpr ⟨fun g hg => hf g hg, hrest⟩
      · simp only [Bool.not_eq_true] at hk
        simp only [updateFirst, hk, Bool.false_eq_true, if_false]
        refine List.pairwise_cons.mpr ⟨fun g hg => ?_, ih hrest⟩
        rcases keys_mem_updateFirst pid d rest g hg with ⟨g0, hg0, hp, ht⟩
        rw [hp, ht]
        exact hf g0 hg0

lemma uniqueKeys_upsertPoint (pid : ℕ) (d : ProviderPoint) (s : List Forecast)
    (h : uniqueKeys s) : uniqueKeys (upsertPoint pid s d) := by
  unfold upsertPoint
  by_cases hk : hasKey s pid d.period_end = true
  · simp only [hk, if_true]
    exact uniqueKeys_updateFirst pid d s h
  · simp only [Bool.not_eq_true] at hk
    simp only [hk, Bool.false_eq_true, if_false]
    have hnone : ∀ f ∈ s, sameKey f pid d.period_end = false := by
      intro f hfs
      by_contra hc
      simp only [Bool.not_eq_false] at hc
      have : hasKey s pid d.period_end = true := by
        simp only [hasKey, List.any_eq_true]
        exact ⟨f, hfs, hc⟩
      simp [this] at hk
    refine List.pairwise_append.mpr ⟨h, List.pairwise_singleton _ _, ?_⟩
    intro f hfs g hgnew
    rcases List.mem_singleton.mp hgnew with rfl
    have := hnone f hfs
    simp only [sameKey, Bool.and_eq_false_iff, beq_eq_false_iff_ne] at this
    intro hcon
    rcases this with hp | ht
    · exact hp hcon.1
    · exact ht hcon.2

lemma uniqueKeys_reconcilePlant (pid : ℕ) (pts : List ProviderPoint)
    (s : List Forecast) (h : uniqueKeys s) : uniqueKeys (reconcilePlant pid s pts) := by
  induction pts generalizing s with
  | nil => exact h
  | cons d rest ih =>
      rw [reconcilePlant_cons]
      exact ih (upsertPoint pid s d) (uniqueKeys_upsertPoint pid d s h)

/-- C3: key uniqueness is an invariant of the forecast store.  After any
sequence of reconcile calls, each over an arbitrary list of provider points
(duplicate timestamps included), a store that began with at most one row per
(plant_id, timestamp) still has at most one row per (plant_id, timestamp):
the session sees rows added earlier in the same pass, so a duplicate
timestamp takes the update branch instead of inserting a second row. -/
theorem reconcile_preserves_key_uniqueness (store : List Forecast)
    (calls : List (ℕ × List ProviderPoint)) (h : uniqueKeys store) :
    uniqueKeys (applyCalls store calls) := by
  induction calls generalizing store with
  | nil => exact h
  | cons c rest ih =>
      exact ih (reconcilePlant c.1 store c.2) (uniqueKeys_reconcilePlant c.1 c.2 store h)

/-- Witness for C3: the empty store satisfies the invariant, and after a
reconcile call whose point list repeats one timestamp twice the invariant
still holds. -/
theorem reconcile_preserves_key_uniqueness_witness :
    uniqueKeys ([] : List Forecast) ∧
      uniqueKeys (applyCalls [] [(1, [⟨0, 500, 600, 100, 25, 1/2⟩, ⟨0, 400, 500, 90, 20, 1/4⟩])]) :=
  ⟨List.Pairwise.nil,
    reconcile_preserves_key_uniqueness []
      [(1, [⟨0, 500, 600, 100, 25, 1/2⟩, ⟨0, 400, 500, 90, 20, 1/4⟩])] List.Pairwise.nil⟩

lemma total_energy_eq_spec_estimate (plant : Plant) (store : List Forecast) (todayStart : ℤ) :
    total_energy plant store todayStart = spec_estimate plant store todayStart := by
  unfold total_energy spec_estimate
  congr 1
  have h : (fun f => contribution plant f * (plant.size : ℝ) * 0.15)
      = fun f => contribution plant f * ((plant.size : ℝ) * 0.15) := by
    funext f
    ring
  rw [h, List.sum_map_mul_right]
  ring

lemma dayForecasts_c1 : dayForecasts [c1Point] c1Plant 0 = [c1Point] := rfl

lemma total_energy_c1_value : total_energy c1Plant [c1Point] 0 = -(3/10) := by
  unfold total_energy
  rw [dayForecasts_c1]
  simp only [List.map_cons, List.map_nil, List.sum_cons, List.sum_nil, add_zero]
  have h30 : radians c1Plant.panel_angle = Real.pi / 6 := by
    unfold radians c1Plant
    push_cast
    ring
  have h180 : radians c1Plant.panel_azimuth = Real.pi := by
    unfold radians c1Plant
    push_cast
    ring
  unfold contribution
  rw [h30, h180, Real.sin_pi_div_six, Real.cos_pi_div_six, Real.cos_pi]
  rw [abs_of_pos (by norm_num : (0:ℝ) < 1/2)]
  unfold c1Plant c1Point
  push_cast
  ring_nf

/-- C1: the estimator computes, for every plant and stored point set, the sum
over the day window of the per-point contributions, multiplied by the panel
area and the fixed 0.15 efficiency and divided by 1000; and on the concrete
scenario (tilt 30, azimuth 180, area 10, one point with GHI 500, DNI 600,
DHI 100) the expected output is exactly -0.3 kWh. -/
theorem estimator_formula_and_scenario :
    (∀ (plant : Plant) (store : List Forecast) (todayStart : ℤ),
        total_energy plant store todayStart = spec_estimate plant store todayStart)
      ∧ total_energy c1Plant [c1Point] 0 = -(3/10) :=
  ⟨total_energy_eq_spec_estimate, total_energy_c1_value⟩

/-- C8: if zero stored points fall inside the half-open day window for a
plant, the computed expected output for that plant and day is exactly 0 and
the computation is total (no error path exists). -/
theorem empty_window_estimate_zero (plant : Plant) (store : List Forecast) (todayStart : ℤ)
    (h : dayForecasts store plant todayStart = []) :
    total_energy plant store todayStart = 0 := by
  unfold total_energy
  rw [h]
  simp

/-- Witness for C8: a store whose only point lies outside the day window
yields an empty window and an estimate of exactly 0. -/
theorem empty_window_estimate_zero_witness :
    dayForecasts [latePoint] c1Plant 0 = [] ∧ total_energy c1Plant [latePoint] 0 = 0 :=
  ⟨rfl, empty_window_estimate_zero c1Plant [latePoint] 0 rfl⟩

/-- C6 counterexample: the concrete spec scenario itself has in-range tilt,
azimuth, and area and non-negative irradiance values, yet the expected output
is -0.3, which is negative; so the estimator does produce a negative output
for non-negative irradiance inputs and in-range geometry. -/
theorem nonnegativity_counterexample :
    (0 ≤ c1Plant.panel_angle ∧ c1Plant.panel_angle ≤ 90)
      ∧ (0 ≤ c1Plant.panel_azimuth ∧ c1Plant.panel_azimuth < 360)
      ∧ 0 < c1Plant.size
      ∧ (∀ f ∈ [c1Point], 0 ≤ f.ghi ∧ 0 ≤ f.dni ∧ 0 ≤ f.dhi)
      ∧ total_energy c1Plant [c1Point] 0 < 0 := by
  refine ⟨by decide, by decide, by decide, by decide, ?_⟩
  rw [total_energy_c1_value]
  norm_num

lemma radians_nonneg (deg : ℚ) (h0 : 0 ≤ deg) : 0 ≤ radians deg := by
  unfold radians
  apply div_nonneg _ (by norm_num)
  exact mul_nonneg (by exact_mod_cast h0) Real.pi_pos.le

lemma radians_le_pi_div_two (deg : ℚ) (h90 : deg ≤ 90) : radians deg ≤ Real.pi / 2 := by
  unfold radians
  have h1 : (deg : ℝ) ≤ 90 := by exact_mod_cast h90
  have h2 : (0:ℝ) < Real.pi := Real.pi_pos
  nlinarith

lemma cos_radians_nonneg (deg : ℚ) (h0 : 0 ≤ deg) (h90 : deg ≤ 90) :
    0 ≤ Real.cos (radians deg) := by
  apply Real.cos_nonneg_of_mem_Icc
  rw [Set.mem_Icc]
  refine ⟨?_, radians_le_pi_div_two deg h90⟩
  have := radians_nonneg deg h0
  have hpi := Real.pi_pos
  linarith

lemma contribution_nonneg (plant : Plant) (f : Forecast)
    (hz1 : 0 ≤ plant.panel_azimuth) (hz2 : plant.panel_azimuth ≤ 90)
    (hg : 0 ≤ f.ghi) (hd : 0 ≤ f.dni) (hh : 0 ≤ f.dhi) :
    0 ≤ contribution plant f := by
  unfold contribution
  have hcosaz := cos_radians_nonneg plant.panel_azimuth hz1 hz2
  have hcos_le : Real.cos (radians plant.panel_angle) ≤ 1 := Real.cos_le_one _
  have hcos_ge : -1 ≤ Real.cos (radians plant.panel_angle) := Real.neg_one_le_cos _
  have t1 : 0 ≤ (f.dni : ℝ) * |Real.sin (radians plant.panel_angle)|
      * Real.cos (radians plant.panel_azimuth) :=
    mul_nonneg (mul_nonneg (by exact_mod_cast hd) (abs_nonneg _)) hcosaz
  have t2 : 0 ≤ (f.dhi : ℝ) * (1 + Real.cos (radians plant.panel_angle)) / 2 := by
    apply div_nonneg _ (by norm_num)
    apply mul_nonneg (by exact_mod_cast hh)
    linarith
  have t3 : 0 ≤ (f.ghi : ℝ) * 0.2 * (1 - Real.cos (radians plant.panel_angle)) / 2 := by
    apply div_nonneg _ (by norm_num)
    apply mul_nonneg (mul_nonneg (by exact_mod_cast hg) (by norm_num))
    linarith
  linarith

/-- C6 amended: for every plant with in-range tilt, non-negative area, and
azimuth restricted to at most 90 degrees (so that the cosine of the azimuth
is non-negative; the unrestricted claim is false at azimuth 180), and every
stored point set with non-negative GHI, DNI, and DHI, the expected output is
non-negative. -/
theorem nonnegativity_amended (plant : Plant) (store : List Forecast) (todayStart : ℤ)
    (ha1 : 0 ≤ plant.panel_angle) (ha2 : plant.panel_angle ≤ 90)
    (hz1 : 0 ≤ plant.panel_azimuth) (hz2 : plant.panel_azimuth ≤ 90)
    (hs : 0 ≤ plant.size)
    (hirr : ∀ f ∈ store, 0 ≤ f.ghi ∧ 0 ≤ f.dni ∧ 0 ≤ f.dhi) :
    0 ≤ total_energy plant store todayStart := by
  unfold total_energy
  apply div_nonneg _ (by norm_num)
  apply List.sum_nonneg
  intro x hx
  simp only [List.mem_map] at hx
  obtain ⟨f, hf, rfl⟩ := hx
  have hfs : f ∈ store := List.mem_of_mem_filter hf
  obtain ⟨hg, hd, hh⟩ := hirr f hfs
  have hc := contribution_nonneg plant f hz1 hz2 hg hd hh
  exact mul_nonneg (mul_nonneg hc (by exact_mod_cast hs)) (by norm_num)

/-- Witness for the amended C6: a north-facing plant with tilt 30 and the
concrete non-negative point yields a non-negative expected output. -/
theorem nonnegativity_amended_witness :
    (0 ≤ northPlant.panel_angle ∧ northPlant.panel_angle ≤ 90
        ∧ 0 ≤ northPlant.panel_azimuth ∧ northPlant.panel_azimuth ≤ 90
        ∧ 0 ≤ northPlant.size
        ∧ ∀ f ∈ [c1Point], 0 ≤ f.ghi ∧ 0 ≤ f.dni ∧ 0 ≤ f.dhi)
      ∧ 0 ≤ total_energy northPlant [c1Point] 0 :=
  ⟨by decide,
    nonnegativity_amended northPlant [c1Point] 0 (by decide) (by decide) (by decide)
      (by decide) (by decide) (by decide)⟩

lemma calculate_plant_performance_eq_append (plants : List Plant) (store : List Forecast)
    (ledger : List PlantPerformance) (today : ℤ) :
    calculate_plant_performance plants store ledger today
      = ledger ++ plants.map (fun p =>
          { plant_id := p.id, date := today,
            expected_output := total_energy p store today }) := by
  induction plants generalizing ledger with
  | nil => simp [calculate_plant_performance]
  | cons p rest ih =>
      simp only [calculate_plant_performance, List.foldl_cons] at ih ⊢
      rw [ih, List.map_cons, List.append_assoc, List.singleton_append]

/-- C7: every invocation of the performance pass appends exactly one new
PlantPerformance row per plant for the day, performing no lookup or
deduplication of an existing row for the same plant and day; invoking the
pass twice for the same day therefore appends the per-plant records twice. -/
theorem performance_pass_appends (plants : List Plant) (store : List Forecast)
    (ledger : List PlantPerformance) (today : ℤ) :
    calculate_plant_performance plants store ledger today
        = ledger ++ plants.map (fun p =>
            { plant_id := p.id, date := today,
              expected_output := total_energy p store today })
      ∧ (calculate_plant_performance plants store ledger today).length
          = ledger.length + plants.length
      ∧ calculate_plant_performance plants store
            (calculate_plant_performance plants store ledger today) today
          = ledger
              ++ plants.map (fun p =>
                  { plant_id := p.id, date := today,
                    expected_output := total_energy p store today })
              ++ plants.map (fun p =>
                  { plant_id := p.id, date := today,
                    expected_output := total_energy p store today }) := by
  refine ⟨calculate_plant_performance_eq_append plants store ledger today, ?_, ?_⟩
  · rw [calculate_plant_performance_eq_append]
    simp
  · rw [calculate_plant_performance_eq_append, calculate_plant_performance_eq_append]

/-- C9 counterexample: a plant whose tilt, azimuth, and area are all out of
range is not skipped by the estimation pass: no validation runs, no error is
recorded, and a PlantPerformance row for it is appended anyway (with value 0
here only because the store is empty). -/
theorem geometry_validation_counterexample :
    ¬(0 ≤ badPlant.panel_angle ∧ badPlant.panel_angle ≤ 90)
      ∧ ¬(0 ≤ badPlant.panel_azimuth ∧ badPlant.panel_azimuth < 360)
      ∧ ¬(0 < badPlant.size)
      ∧ calculate_plant_performance [badPlant] [] [] 0
          = [{ plant_id := 7, date := 0, expected_output := 0 }] := by
  refine ⟨by decide, by decide, by decide, ?_⟩
  have h0 : total_energy badPlant [] 0 = 0 := by
    unfold total_energy dayForecasts
    simp
  rw [calculate_plant_performance_eq_append]
  simp only [List.map_cons, List.map_nil, List.nil_append, h0]
  rfl

/-- C9 amended: the estimation pass performs no geometry validation at all:
for every plant directory, including plants with out-of-range tilt, azimuth,
or area, every plant gets exactly one appended PlantPerformance row, none is
skipped, and no error path exists. -/
theorem no_geometry_validation (plants : List Plant) (store : List Forecast)
    (ledger : List PlantPerformance) (today : ℤ) :
    (calculate_plant_performance plants store ledger today).length
        = ledger.length + plants.length
      ∧ ∀ p ∈ plants,
          ({ plant_id := p.id, date := today,
             expected_output := total_energy p store today } : PlantPerformance)
            ∈ calculate_plant_performance plants store ledger today := by
  constructor
  · rw [calculate_plant_performance_eq_append]
    simp
  · intro p hp
    rw [calculate_plant_performance_eq_append]
    exact List.mem_append_right _ (List.mem_map_of_mem _ hp)

/-- Witness for the amended C9: the out-of-range plant is a member of its own
directory and its row is present in the pass output. -/
theorem no_geometry_validation_witness :
    badPlant ∈ [badPlant]
      ∧ ({ plant_id := badPlant.id, date := 0,
           expected_output := total_energy badPlant [] 0 } : PlantPerformance)
          ∈ calculate_plant_performance [badPlant] [] [] 0 :=
  ⟨List.mem_singleton.mpr rfl,
    (no_geometry_validation [badPlant] [] [] 0).2 badPlant (List.mem_singleton.mpr rfl)⟩

lemma reconcileRaw_ok (pid : ℕ) (raw : List RawPoint) (store : List Forecast)
    (h : raw.any (fun r => (parsePoint r).isNone) = false) :
    reconcileRaw pid store raw = .ok (reconcilePlant pid store (raw.filterMap parsePoint)) := by
  induction raw generalizing store with
  | nil => rfl
  | cons r rest ih =>
      simp only [List.any_cons, Bool.or_eq_false_iff] at h
      cases hp : parsePoint r with
      | none =>
          rw [hp] at h
          simp at h
      | some d =>
          simp only [reconcileRaw, hp]
          rw [ih (upsertPoint pid store d) h.2]
          simp only [List.filterMap_cons, hp]
          rfl

/-- C4 counterexample: with two plants where the first plant's provider
response is structurally malformed (200 status but no forecasts key), the
whole sync pass raises instead of isolating the failure: the pass aborts with
the KeyError, the commit never runs, and the second plant's good point is not
reconciled into the durable store. -/
theorem partial_failure_counterexample :
    update_forecast_data [] mixedMalformed = .error .keyError
      ∧ committedStore mixedMalformed [] = []
      ∧ hasKey (committedStore mixedMalformed []) plantB.id 0 = false :=
  ⟨rfl, rfl, rfl⟩

/-- C4 amended: per-plant failure isolation holds only for non-2xx provider
statuses, where get_solcast_forecast logs and returns None and the plant is
skipped: when no plant's processing raises (every response is either good or
a plain HTTP failure), the pass completes, commits, and reconciles every
successfully fetched plant.  A raised exception (network failure, missing
forecasts key, malformed point) instead aborts the whole pass. -/
theorem partial_failure_isolation_amended (plants : List (Plant × HttpResponse))
    (store : List Forecast) (h : ∀ pr ∈ plants, plantFetchAborts pr = false) :
    update_forecast_data store plants = .ok (plants.foldl syncStep store) := by
  induction plants generalizing store with
  | nil => rfl
  | cons pr rest ih =>
      obtain ⟨p, resp⟩ := pr
      have hpr := h (p, resp) (List.mem_cons_self _ _)
      have hrest := fun q hq => h q (List.mem_cons_of_mem _ hq)
      cases hres : get_solcast_forecast resp with
      | error e =>
          rw [plantFetchAborts, hres] at hpr
          cases hpr
      | ok o =>
          cases o with
          | none =>
              simp only [update_forecast_data, hres]
              rw [List.foldl_cons]
              have hstep : syncStep store (p, resp) = store := by
                simp [syncStep, hres]
              rw [hstep]
              exact ih store hrest
          | some raw =>
              have hparse : raw.any (fun r => (parsePoint r).isNone) = false := by
                rw [plantFetchAborts, hres] at hpr
                exact hpr
              simp only [update_forecast_data, hres, reconcileRaw_ok p.id raw store hparse]
              rw [List.foldl_cons]
              have hstep : syncStep store (p, resp)
                  = reconcilePlant p.id store (raw.filterMap parsePoint) := by
                simp [syncStep, hres]
              rw [hstep]
              exact ih (reconcilePlant p.id store (raw.filterMap parsePoint)) hrest

/-- Witness for the amended C4: with the first plant's fetch failing on a
non-200 status and the second plant's response good, no plant aborts, the
pass succeeds, and it equals the isolated per-plant fold. -/
theorem partial_failure_isolation_witness :
    (∀ pr ∈ mixedHttpFail, plantFetchAborts pr = false)
      ∧ update_forecast_data [] mixedHttpFail = .ok (mixedHttpFail.foldl syncStep []) :=
  ⟨by decide, partial_failure_isolation_amended mixedHttpFail [] (by decide)⟩

/-- C5 counterexample: on a non-2xx response the fetch does not fail with any
error value at all; get_solcast_forecast logs and returns None (falsy), so no
ProviderError carrying the status is raised. -/
theorem provider_error_counterexample :
    get_solcast_forecast (.failure 500) = .ok none
      ∧ ∀ e : FetchErr, get_solcast_forecast (.failure 500) ≠ .error e :=
  ⟨rfl, fun e h => Except.noConfusion h⟩

/-- C5 amended: on a non-2xx status the fetch logs and returns None instead
of raising; a missing forecasts key raises a plain KeyError and a network
failure raises the requests exception (no dedicated ProviderError type
exists); a 200 response with the key returns the raw entries unvalidated,
and a missing field in any single entry makes the reconcile of that whole
response fail, so no partial best-effort parse is committed. -/
theorem provider_fetch_behavior (r : RawPoint) (hr : parsePoint r = none) :
    (∀ s : ℕ, get_solcast_forecast (.failure s) = .ok none)
      ∧ get_solcast_forecast (.success .missingForecastsKey) = .error .keyError
      ∧ get_solcast_forecast .networkError = .error .requestException
      ∧ (∀ pts : List RawPoint,
          get_solcast_forecast (.success (.withForecasts pts)) = .ok (some pts))
      ∧ (∀ (pid : ℕ) (store : List Forecast) (pre post : List RawPoint),
          reconcileRaw pid store (pre ++ r :: post) = .error .pointParseError) := by
  refine ⟨fun s => rfl, rfl, rfl, fun pts => rfl, ?_⟩
  intro pid store pre post
  induction pre generalizing store with
  | nil => simp only [List.nil_append, reconcileRaw, hr]
  | cons q rest ih =>
      cases hq : parsePoint q with
      | none => simp only [List.cons_append, reconcileRaw, hq]
      | some d =>
          simp only [List.cons_append, reconcileRaw, hq]
          exact ih (upsertPoint pid store d)

/-- Witness for the amended C5: the entry with a missing ghi field fails to
parse, and reconciling a list containing it fails as a whole. -/
theorem provider_fetch_behavior_witness :
    parsePoint badRaw = none
      ∧ reconcileRaw 1 [] ([] ++ badRaw :: []) = .error .pointParseError :=
  ⟨rfl, (provider_fetch_behavior badRaw rfl).2.2.2.2 1 [] [] []⟩

/-- C10: the forecast and performance read endpoints resolve the plant with a
filter on both the owning user id and the plant name, so data is returned
only for a plant owned by the authenticated user; when the user owns no plant
of the given name — also when a plant of that name belongs to someone else —
the response is a 404 Plant not found and no other user's rows are revealed:
any 200 body is exactly the owned plant's rows. -/
theorem ownership_isolation (users : List User) (plants : List Plant)
    (store : List Forecast) (ledger : List PlantPerformance)
    (current_user plant_name : String) (user : User)
    (huser : users.find? (fun u => u.username == current_user) = some user) :
    ((∀ p ∈ plants, ¬(p.user_id = user.id ∧ p.name = plant_name)) →
        get_forecast users plants store current_user plant_name
            = .notFound "Plant not found"
          ∧ get_performance users plants ledger current_user plant_name
            = .notFound "Plant not found")
      ∧ (∀ data, get_forecast users plants store current_user plant_name = .ok data →
          ∃ plant ∈ plants, plant.user_id = user.id ∧ plant.name = plant_name
            ∧ data = (sortByTimestamp (store.filter
                (fun f => f.plant_id == plant.id))).map toForecastOut)
      ∧ (∀ pdata, get_performance users plants ledger current_user plant_name = .ok pdata →
          ∃ plant ∈ plants, plant.user_id = user.id ∧ plant.name = plant_name
            ∧ pdata = ((sortByDateDesc (ledger.filter
                (fun rr => rr.plant_id == plant.id))).take 30).map toPerformanceOut) := by
  refine ⟨?_, ?_, ?_⟩
  · intro hnone
    have hfind : plants.find? (fun p => p.user_id == user.id && p.name == plant_name)
        = none := by
      rw [List.find?_eq_none]
      intro p hp hcon
      simp only [Bool.and_eq_true, beq_iff_eq] at hcon
      exact hnone p hp ⟨hcon.1, hcon.2⟩
    constructor
    · simp only [get_forecast, huser, hfind]
    · simp only [get_performance, huser, hfind]
  · intro data hdata
    simp only [get_forecast, huser] at hdata
    cases hfind : plants.find? (fun p => p.user_id == user.id && p.name == plant_name) with
    | none =>
        rw [hfind] at hdata
        simp at hdata
    | some plant =>
        rw [hfind] at hdata
        simp only [ApiResult.ok.injEq] at hdata
        have hmem := List.mem_of_find?_eq_some hfind
        have hpred := List.find?_some hfind
        simp only [Bool.and_eq_true, beq_iff_eq] at hpred
        exact ⟨plant, hmem, hpred.1, hpred.2, hdata.symm⟩
  · intro pdata hdata
    simp only [get_performance, huser] at hdata
    cases hfind : plants.find? (fun p => p.user_id == user.id && p.name == plant_name) with
    | none =>
        rw [hfind] at hdata
        simp at hdata
    | some plant =>
        rw [hfind] at hdata
        simp only [ApiResult.ok.injEq] at hdata
        have hmem := List.mem_of_find?_eq_some hfind
        have hpred := List.find?_some hfind
        simp only [Bool.and_eq_true, beq_iff_eq] at hpred
        exact ⟨plant, hmem, hpred.1, hpred.2, hdata.symm⟩

/-- Witness for C10: alice is authenticated, the only plant named solar1
belongs to bob, and alice's request for solar1 is answered with the 404
Plant not found response. -/
theorem ownership_isolation_witness :
    ([alice, bob].find? (fun u => u.username == "alice") = some alice)
      ∧ bobPlant.name = "solar1"
      ∧ (∀ p ∈ [bobPlant], ¬(p.user_id = alice.id ∧ p.name = "solar1"))
      ∧ get_forecast [alice, bob] [bobPlant] [] "alice" "solar1"
          = .notFound "Plant not found" :=
  ⟨rfl, rfl, by decide,
    ((ownership_isolation [alice, bob] [bobPlant] [] [] "alice" "solar1" alice rfl).1
      (by decide)).1⟩

end SolarCast
